import Mathlib

/-!
Verification development for the Soul Protocol registry.

The TypeScript source is shallowly embedded:
- JSON documents become the inductive `Soul.Json`; `JSON.stringify` (plain and
  with a replacer array, as used by the server's `hashSoulDocument`) and the
  example client's recursive key sort are modelled as executable functions.
- SHA-512 (FIPS 180-4, the `@noble/hashes` primitive both sides call) is
  implemented concretely so that digests can be evaluated in proofs.
- Signature verification keeps the exact decode pipeline of `crypto.ts`
  (`decodeBase58OrHex`, `base58Decode`), with the Ed25519 primitive abstracted
  as an oracle parameter; the surrounding try/catch becomes a total `Bool`
  function.
- The HTTP handlers of the registry server become pure step functions on the
  record and challenge state.
Machine integers do not overflow in the source paths modelled here except in
SHA-512, where 64-bit wrap-around is made explicit with `% 2 ^ 64`.
-/

namespace Soul

/-- JSON-like documents. Objects keep insertion order of keys, as JavaScript
objects do for non-index string keys (all keys occurring in this repository's
documents are non-index keys). -/
inductive Json where
  | null : Json
  | bool : Bool → Json
  | num : Int → Json
  | str : String → Json
  | arr : List Json → Json
  | obj : List (String × Json) → Json

def hexDigitCh (n : Nat) : Char :=
  List.getD ("0123456789abcdef".data) n '0'

/-- One character of `QuoteJSONString` (ECMA-262), as `JSON.stringify` escapes
string data: quote, backslash, the named control escapes, and `\u00xx` for the
remaining control characters; all other characters are passed through. -/
def escChar (c : Char) : String :=
  if c = '"' then "\\\""
  else if c = '\\' then "\\\\"
  else if c = '\x08' then "\\b"
  else if c = '\x09' then "\\t"
  else if c = '\x0a' then "\\n"
  else if c = '\x0c' then "\\f"
  else if c = '\x0d' then "\\r"
  else if c.toNat < 32 then
    "\\u00" ++ String.mk [hexDigitCh (c.toNat / 16), hexDigitCh (c.toNat % 16)]
  else String.singleton c

def quoteJson (s : String) : String :=
  "\"" ++ String.join (s.data.map escChar) ++ "\""

mutual

/-- Plain `JSON.stringify` (no replacer, no spacing): the fixed whitespace-free
encoding used by both hash implementations. -/
def stringify : Json → String
  | .null => "null"
  | .bool b => if b then "true" else "false"
  | .num n => toString n
  | .str s => quoteJson s
  | .arr xs => "[" ++ stringifyList xs ++ "]"
  | .obj fields => "\x7b" ++ stringifyFields fields ++ "\x7d"

def stringifyList : List Json → String
  | [] => ""
  | [x] => stringify x
  | x :: y :: rest => stringify x ++ "," ++ stringifyList (y :: rest)

def stringifyFields : List (String × Json) → String
  | [] => ""
  | [p] => quoteJson p.1 ++ ":" ++ stringify p.2
  | p :: q :: rest => quoteJson p.1 ++ ":" ++ stringify p.2 ++ "," ++ stringifyFields (q :: rest)

end

/-- Codepoint-order comparison on character lists: the comparison
`Array.prototype.sort` applies to the (ASCII) keys appearing here, where
UTF-16 code-unit order and codepoint order coincide. -/
def charListLt : List Char → List Char → Bool
  | [], [] => false
  | [], _ :: _ => true
  | _ :: _, [] => false
  | a :: as, b :: bs =>
    if a.toNat < b.toNat then true
    else if b.toNat < a.toNat then false
    else charListLt as bs

def strLt (a b : String) : Bool := charListLt a.data b.data

def charsPrefix : List Char → List Char → Bool
  | [], _ => true
  | _ :: _, [] => false
  | p :: ps, c :: cs => if p = c then charsPrefix ps cs else false

/-- `s.startsWith(p)`. -/
def strStartsWith (s p : String) : Bool := charsPrefix p.data s.data

/-- `s.slice(n)`: drop the first `n` characters. -/
def strDrop (s : String) (n : Nat) : String := String.mk (s.data.drop n)

/-- `s.toLowerCase()`. On the ASCII alphabet to which the schemas restrict
names and DIDs, JavaScript's `toLowerCase` is exactly ASCII lowercasing. -/
def toLowerStr (s : String) : String := String.mk (s.data.map Char.toLower)

/-- Insert a string into a sorted list (ascending codepoint order, the order
`Array.prototype.sort` gives for the ASCII keys used here). -/
def insertStr (s : String) : List String → List String
  | [] => [s]
  | t :: rest => if strLt s t then s :: t :: rest else t :: insertStr s rest

def sortStrings : List String → List String
  | [] => []
  | s :: rest => insertStr s (sortStrings rest)

def insertField (p : String × Json) : List (String × Json) → List (String × Json)
  | [] => [p]
  | q :: rest => if strLt p.1 q.1 then p :: q :: rest else q :: insertField p rest

def sortFields : List (String × Json) → List (String × Json)
  | [] => []
  | p :: rest => insertField p (sortFields rest)

mutual

/-- The example client's `sortObjectKeys`: recursively sort object keys at
every nesting level; arrays keep element order; primitives unchanged. -/
def sortObjectKeys : Json → Json
  | .null => .null
  | .bool b => .bool b
  | .num n => .num n
  | .str s => .str s
  | .arr xs => .arr (sortObjectKeysList xs)
  | .obj fields => .obj (sortFields (sortObjectKeysFields fields))

def sortObjectKeysList : List Json → List Json
  | [] => []
  | x :: rest => sortObjectKeys x :: sortObjectKeysList rest

def sortObjectKeysFields : List (String × Json) → List (String × Json)
  | [] => []
  | p :: rest => (p.1, sortObjectKeys p.2) :: sortObjectKeysFields rest

end

/-- Keep, in the order of `keys`, exactly the fields of `fields` whose name is
listed in `keys` (ECMA-262 `SerializeJSONObject` when the stringify state
carries a PropertyList). -/
def reorderFields (keys : List String) (fields : List (String × Json)) :
    List (String × Json) :=
  keys.filterMap fun k => (fields.find? fun p => p.1 == k).map fun p => (k, p.2)

mutual

/-- Effect of `JSON.stringify`'s replacer ARRAY on the value tree: at every
object, whatever its depth, only the property names listed in `keys` survive,
in the order of `keys`; array elements are all kept. -/
def applyRep (keys : List String) : Json → Json
  | .null => .null
  | .bool b => .bool b
  | .num n => .num n
  | .str s => .str s
  | .arr xs => .arr (applyRepList keys xs)
  | .obj fields => .obj (reorderFields keys (applyRepFields keys fields))

def applyRepList (keys : List String) : List Json → List Json
  | [] => []
  | x :: rest => applyRep keys x :: applyRepList keys rest

def applyRepFields (keys : List String) : List (String × Json) → List (String × Json)
  | [] => []
  | p :: rest => (p.1, applyRep keys p.2) :: applyRepFields keys rest

end

/-- `Object.keys(doc).sort()` for an object document (the argument type of the
server's `hashSoulDocument` is `object`). -/
def topKeysSorted : Json → List String
  | .obj fields => sortStrings (fields.map Prod.fst)
  | _ => []

/-- The server's canonical form: `JSON.stringify(doc, Object.keys(doc).sort())`
from `crypto.ts`. The sorted top-level key list acts as the replacer array. -/
def canonicalServer (doc : Json) : String :=
  stringify (applyRep (topKeysSorted doc) doc)

/-- The example client's canonical form: `JSON.stringify(sortObjectKeys(doc))`. -/
def canonicalClient (doc : Json) : String :=
  stringify (sortObjectKeys doc)

/-! ### SHA-512

Modelled from the spec: the "wide cryptographic hash function (512-bit
digest)" both `crypto.ts` and the example client obtain from
`@noble/hashes/sha512` is SHA-512 of FIPS 180-4; the library itself is a
dependency outside this repository, so the standard algorithm is implemented
here directly. Words are 64-bit, written as `Nat` reduced `% 2 ^ 64`; the
round and initialization constants are derived, as in the standard, from the
fractional parts of the cube and square roots of the first primes. -/

def w64 (n : Nat) : Nat := n % 2 ^ 64

def rotr64 (x n : Nat) : Nat := w64 ((x >>> n) ||| (x <<< (64 - n)))

def shaCh (x y z : Nat) : Nat := (x &&& y) ^^^ ((x ^^^ (2 ^ 64 - 1)) &&& z)

def shaMaj (x y z : Nat) : Nat := (x &&& y) ^^^ (x &&& z) ^^^ (y &&& z)

def bSig0 (x : Nat) : Nat := rotr64 x 28 ^^^ rotr64 x 34 ^^^ rotr64 x 39

def bSig1 (x : Nat) : Nat := rotr64 x 14 ^^^ rotr64 x 18 ^^^ rotr64 x 41

def sSig0 (x : Nat) : Nat := rotr64 x 1 ^^^ rotr64 x 8 ^^^ (x >>> 7)

def sSig1 (x : Nat) : Nat := rotr64 x 19 ^^^ rotr64 x 61 ^^^ (x >>> 6)

def isPrimeNat (n : Nat) : Bool :=
  if n < 2 then false
  else (List.range n).all fun d => if d < 2 then true else n % d != 0

/-- The first 80 primes (2, 3, 5, ..., 409). -/
def shaPrimes : List Nat := ((List.range 410).filter isPrimeNat).take 80

/-- Binary search for the integer `k`-th-root-like bound: largest `m` in
`[lo, hi)` with `m^3 ≤ n`, given `lo^3 ≤ n < hi^3`. -/
def cbrtSearch : Nat → Nat → Nat → Nat → Nat
  | 0, lo, _, _ => lo
  | fuel + 1, lo, hi, n =>
    if hi ≤ lo + 1 then lo
    else
      let mid := (lo + hi) / 2
      if mid * mid * mid ≤ n then cbrtSearch fuel mid hi n
      else cbrtSearch fuel lo mid n

def natCbrt (n : Nat) : Nat := cbrtSearch 256 0 (n + 1) n

def sqrtSearch : Nat → Nat → Nat → Nat → Nat
  | 0, lo, _, _ => lo
  | fuel + 1, lo, hi, n =>
    if hi ≤ lo + 1 then lo
    else
      let mid := (lo + hi) / 2
      if mid * mid ≤ n then sqrtSearch fuel mid hi n
      else sqrtSearch fuel lo mid n

def natSqrt (n : Nat) : Nat := sqrtSearch 256 0 (n + 1) n

/-- First 64 bits of the fractional part of the square root of `p`. -/
def fracSqrtBits (p : Nat) : Nat := natSqrt (p * 2 ^ 128) % 2 ^ 64

/-- First 64 bits of the fractional part of the cube root of `p`. -/
def fracCbrtBits (p : Nat) : Nat := natCbrt (p * 2 ^ 192) % 2 ^ 64

/-- The 80 SHA-512 round constants K. -/
def shaK : List Nat := shaPrimes.map fracCbrtBits

/-- The 8 SHA-512 initial hash values H(0). -/
def shaH0 : List Nat := (shaPrimes.take 8).map fracSqrtBits

def beBytes (k n : Nat) : List Nat :=
  (List.range k).map fun i => n / 2 ^ (8 * (k - 1 - i)) % 256

/-- SHA-512 message padding: append `0x80`, zeros to 112 mod 128, then the
message bit length as a 16-byte big-endian integer. -/
def padMsg (msg : List Nat) : List Nat :=
  let len := msg.length
  let zeros := (240 - (len + 1) % 128) % 128
  msg ++ [128] ++ List.replicate zeros 0 ++ beBytes 16 (8 * len)

def toWords : List Nat → List Nat
  | b0 :: b1 :: b2 :: b3 :: b4 :: b5 :: b6 :: b7 :: rest =>
    (((((((b0 * 256 + b1) * 256 + b2) * 256 + b3) * 256 + b4) * 256 + b5) * 256
        + b6) * 256 + b7) :: toWords rest
  | _ => []

def chunksAux : Nat → List Nat → List (List Nat)
  | 0, _ => []
  | fuel + 1, l => if l = [] then [] else l.take 128 :: chunksAux fuel (l.drop 128)

/-- Split the padded message into 128-byte blocks. The fuel argument only
bounds the recursion; `l.length + 1` steps always suffice because every step
consumes at least one byte. -/
def chunks (l : List Nat) : List (List Nat) :=
  chunksAux (l.length + 1) l

/-- Extend the 16 message words of one block to the 80-word schedule. -/
def extendW (w : Array Nat) : Array Nat :=
  (List.range 64).foldl
    (fun w i =>
      let t := i + 16
      w.push (w64 (sSig1 (w.getD (t - 2) 0) + w.getD (t - 7) 0
        + sSig0 (w.getD (t - 15) 0) + w.getD (t - 16) 0)))
    w

structure ShaState where
  a : Nat
  b : Nat
  c : Nat
  d : Nat
  e : Nat
  f : Nat
  g : Nat
  h : Nat

def shaRound (st : ShaState) (k w : Nat) : ShaState :=
  let t1 := w64 (st.h + bSig1 st.e + shaCh st.e st.f st.g + k + w)
  let t2 := w64 (bSig0 st.a + shaMaj st.a st.b st.c)
  { a := w64 (t1 + t2), b := st.a, c := st.b, d := st.c,
    e := w64 (st.d + t1), f := st.e, g := st.f, h := st.g }

def compressBlock (h : ShaState) (block : List Nat) : ShaState :=
  let w := extendW (toWords block).toArray
  let st := (shaK.zip w.toList).foldl (fun st p => shaRound st p.1 p.2) h
  { a := w64 (h.a + st.a), b := w64 (h.b + st.b), c := w64 (h.c + st.c),
    d := w64 (h.d + st.d), e := w64 (h.e + st.e), f := w64 (h.f + st.f),
    g := w64 (h.g + st.g), h := w64 (h.h + st.h) }

def shaInit : ShaState :=
  match shaH0 with
  | [a, b, c, d, e, f, g, hh] => ⟨a, b, c, d, e, f, g, hh⟩
  | _ => ⟨0, 0, 0, 0, 0, 0, 0, 0⟩

def sha512Bytes (msg : List Nat) : List Nat :=
  let fin := (chunks (padMsg msg)).foldl compressBlock shaInit
  beBytes 8 fin.a ++ beBytes 8 fin.b ++ beBytes 8 fin.c ++ beBytes 8 fin.d
    ++ beBytes 8 fin.e ++ beBytes 8 fin.f ++ beBytes 8 fin.g ++ beBytes 8 fin.h

def hexOfByte (b : Nat) : String :=
  String.mk [hexDigitCh (b / 16), hexDigitCh (b % 16)]

/-- `Buffer.from(hash).toString('hex')`: the digest as lowercase hex. -/
def sha512hex (msg : List Nat) : String :=
  String.join ((sha512Bytes msg).map hexOfByte)

/-- UTF-8 encoding of one character (`TextEncoder`). -/
def utf8Encode (c : Char) : List Nat :=
  let n := c.toNat
  if n < 128 then [n]
  else if n < 2048 then [192 ||| (n >>> 6), 128 ||| (n &&& 63)]
  else if n < 65536 then
    [224 ||| (n >>> 12), 128 ||| ((n >>> 6) &&& 63), 128 ||| (n &&& 63)]
  else
    [240 ||| (n >>> 18), 128 ||| ((n >>> 12) &&& 63),
     128 ||| ((n >>> 6) &&& 63), 128 ||| (n &&& 63)]

/-- `new TextEncoder().encode(s)`. -/
def strBytes (s : String) : List Nat :=
  (s.data.map utf8Encode).flatten

/-- The server's `hashSoulDocument` from `crypto.ts`:
`JSON.stringify(doc, Object.keys(doc).sort())`, SHA-512, lowercase hex. -/
def hashSoulDocument (doc : Json) : String :=
  sha512hex (strBytes (canonicalServer doc))

/-- The example client's `hashSoulDocument` from the self-registration script:
recursively sorted keys, plain `JSON.stringify`, SHA-512, lowercase hex. -/
def clientHashSoulDocument (doc : Json) : String :=
  sha512hex (strBytes (canonicalClient doc))

/-! ### Signature verification (`crypto.ts`)

The decode pipeline (`decodeBase58OrHex`, `base58Decode`, the hex fallback of
`Buffer.from(_, 'hex')`) is embedded exactly. The Ed25519 primitive
`ed.verifyAsync` comes from `@noble/ed25519`, a dependency outside this
repository; it is abstracted as an oracle of type `EdOracle`, whose `Except`
result models that the library may throw on wrong-length keys or signatures.
The `try/catch` of `verifySignature` becomes the total `Bool` result: every
`Except.error` anywhere in the body maps to `false`. -/

def BASE58_ALPHABET : String :=
  "123456789ABCDEFGHJKLMNPQRSTUVWXYZabcdefghijkmnopqrstuvwxyz"

def idxOf : List Char → Char → Nat → Option Nat
  | [], _, _ => none
  | c :: rest, t, i => if c = t then some i else idxOf rest t (i + 1)

/-- One pass of the base58 accumulator: thread the carry through the existing
little-endian byte list (`carry += bytes[i] * 58; bytes[i] = carry & 0xff;
carry >>= 8`). Returns the updated list and the remaining carry. -/
def b58Pass : List Nat → Nat → List Nat × Nat
  | [], carry => ([], carry)
  | b :: rest, carry0 =>
    let carry := carry0 + b * 58
    let out := b58Pass rest (carry >>> 8)
    ((carry &&& 255) :: out.1, out.2)

/-- Push the remaining carry as little-endian bytes (`while (carry > 0)
bytes.push(carry & 0xff); carry >>= 8`). -/
def carryBytes (c : Nat) : List Nat :=
  if h : c = 0 then []
  else (c &&& 255) :: carryBytes (c >>> 8)
termination_by c
decreasing_by
  simp only [Nat.shiftRight_eq_div_pow]
  exact Nat.div_lt_self (Nat.pos_of_ne_zero h) (by norm_num)

def b58Digit (bytes : List Nat) (value : Nat) : List Nat :=
  let out := b58Pass bytes value
  out.1 ++ carryBytes out.2

def b58Loop : List Char → List Nat → Except String (List Nat)
  | [], bytes => .ok bytes
  | c :: rest, bytes =>
    match idxOf BASE58_ALPHABET.data c 0 with
    | none => .error ("Invalid base58 character: " ++ String.singleton c)
    | some v => b58Loop rest (b58Digit bytes v)

def leadingOnes : List Char → Nat
  | [] => 0
  | c :: rest => if c = '1' then 1 + leadingOnes rest else 0

/-- `base58Decode` from `crypto.ts`: multiply-accumulate over the alphabet
indices, throwing on a character outside the alphabet; leading `'1'`
characters become leading zero bytes after the final `reverse()`. -/
def base58Decode (s : String) : Except String (List Nat) :=
  match b58Loop s.data [] with
  | .error e => .error e
  | .ok bytes => .ok ((bytes ++ List.replicate (leadingOnes s.data) 0).reverse)

def isHexDigit (c : Char) : Bool :=
  ('0' ≤ c && c ≤ '9') || ('a' ≤ c && c ≤ 'f') || ('A' ≤ c && c ≤ 'F')

def hexVal (c : Char) : Nat :=
  if '0' ≤ c && c ≤ '9' then c.toNat - 48
  else if 'a' ≤ c && c ≤ 'f' then c.toNat - 87
  else if 'A' ≤ c && c ≤ 'F' then c.toNat - 55
  else 0

/-- Node's `Buffer.from(str, 'hex')` on a string of hex digits: consume digit
pairs; a trailing unpaired digit is silently dropped. -/
def hexPairs : List Char → List Nat
  | a :: b :: rest => (hexVal a * 16 + hexVal b) :: hexPairs rest
  | _ => []

/-- `decodeBase58OrHex` from `crypto.ts`: strip a leading `z`, then a leading
`0x`; if what remains is nonempty and all hex digits (the regex
`^[0-9a-fA-F]+$`), hex-decode it, otherwise fall back to `base58Decode`,
which may throw. -/
def decodeBase58OrHex (input : String) : Except String (List Nat) :=
  let i1 := if strStartsWith input "z" then strDrop input 1 else input
  let i2 := if strStartsWith i1 "0x" then strDrop i1 2 else i1
  if !i2.data.isEmpty && i2.data.all isHexDigit then .ok (hexPairs i2.data)
  else base58Decode i2

/-- The `message` parameter of `verifySignature`: `string | Uint8Array`. -/
inductive Msg where
  | ofString : String → Msg
  | ofBytes : List Nat → Msg

/-- A string message is UTF-8 encoded before verification; raw bytes pass
through. -/
def msgBytes : Msg → List Nat
  | .ofString s => strBytes s
  | .ofBytes b => b

/-- The Ed25519 verification primitive `ed.verifyAsync(sig, msg, pubKey)`,
abstracted: arguments are signature bytes, message bytes, public-key bytes. -/
def EdOracle : Type :=
  List Nat → List Nat → List Nat → Except String Bool

/-- `verifySignature` from `crypto.ts`. The whole body sits in a `try` whose
`catch` returns `false`, so each decoding or verification failure yields
`false` and the function is total with a `Bool` result. -/
def verifySignature (ed : EdOracle) (message : Msg) (signature publicKey : String) :
    Bool :=
  match decodeBase58OrHex signature with
  | .error _ => false
  | .ok sigBytes =>
    match decodeBase58OrHex publicKey with
    | .error _ => false
    | .ok pubKeyBytes =>
      match ed sigBytes (msgBytes message) pubKeyBytes with
      | .error _ => false
      | .ok b => b

/-! ### Identity records and row updates (`db.ts`)

One row of the `souls` table, with the column set of `createSchema`. ISO
timestamp strings written by the server (`new Date().toISOString()`,
`datetime('now')`) are threaded in as an opaque `nowIso : String`; where a
handler compares times it does so on millisecond values, modelled as `Int`. -/

inductive SoulStatus where
  | active
  | suspended
  | revoked
deriving DecidableEq, Repr

/-- The status string used in the signed message of `updateStatus`
(the handler interpolates the target status value). -/
def statusName : SoulStatus → String
  | .active => "active"
  | .suspended => "suspended"
  | .revoked => "revoked"

structure SoulRow where
  did : String
  name : String
  publicKey : String
  birthTimestamp : String
  birthOperator : String
  birthBaseModel : Option String := none
  birthPlatform : Option String := none
  birthCharterHash : Option String := none
  avatar : Option String := none
  description : Option String := none
  website : Option String := none
  contactJson : Option String := none
  capabilitiesJson : Option String := none
  riskLevel : Option String := none
  status : SoulStatus
  statusReason : Option String := none
  statusChangedAt : Option String := none
  registeredAt : String
  lastVerifiedAt : Option String := none
  verificationCount : Nat
  version : Nat
  updatedAt : String := ""
deriving DecidableEq, Repr

/-- `db.updateSoulStatus`: sets status, reason and change time, bumps
`version`, touches `updated_at`. -/
def updateSoulStatus (status : SoulStatus) (reason nowIso : String) (r : SoulRow) :
    SoulRow :=
  { r with status := status, statusReason := some reason,
           statusChangedAt := some nowIso, version := r.version + 1,
           updatedAt := nowIso }

/-- `db.incrementVerificationCount`: bumps `verification_count`, sets
`last_verified_at`, touches `updated_at` — and touches nothing else; in
particular it does not change `version`. -/
def incrementVerificationCount (nowIso : String) (r : SoulRow) : SoulRow :=
  { r with verificationCount := r.verificationCount + 1,
           lastVerifiedAt := some nowIso, updatedAt := nowIso }

/-- `db.updateSoulContact`: replaces `contact_json`, bumps `version`. -/
def updateSoulContact (contactJson nowIso : String) (r : SoulRow) : SoulRow :=
  { r with contactJson := some contactJson, version := r.version + 1,
           updatedAt := nowIso }

/-- `db.updateSoulCapabilities`: replaces `capabilities_json` and
`risk_level`, bumps `version`. -/
def updateSoulCapabilities (capabilitiesJson : String) (riskLevel : Option String)
    (nowIso : String) (r : SoulRow) : SoulRow :=
  { r with capabilitiesJson := some capabilitiesJson, riskLevel := riskLevel,
           version := r.version + 1, updatedAt := nowIso }

/-! ### Candidate documents and registration (`types.ts`, server route
`POST /v1/souls/register`, `db.createSoul`) -/

/-- `BirthCertificateSchema`. -/
structure BirthCert where
  timestamp : String
  operator : String
  baseModel : Option String := none
  platform : Option String := none
  charterHash : Option String := none

/-- `SoulDocumentSchema`: the candidate document a registrant submits. The
`contact` sub-object is kept as raw `Json`. -/
structure SoulDocument where
  did : String
  name : String
  publicKey : String
  birth : BirthCert
  avatar : Option String := none
  description : Option String := none
  website : Option String := none
  contact : Option Json := none

def optField (k : String) (v : Option String) : List (String × Json) :=
  match v with
  | none => []
  | some s => [(k, .str s)]

def birthJson (b : BirthCert) : Json :=
  .obj ([("timestamp", .str b.timestamp), ("operator", .str b.operator)]
    ++ optField "baseModel" b.baseModel
    ++ optField "platform" b.platform
    ++ optField "charterHash" b.charterHash)

/-- The JSON object the register handler passes to `hashSoulDocument`: the
zod-parsed document, keys in schema shape order, absent optional fields
omitted. -/
def docJson (d : SoulDocument) : Json :=
  .obj ([("did", .str d.did), ("name", .str d.name),
         ("publicKey", .str d.publicKey), ("birth", birthJson d.birth)]
    ++ optField "avatar" d.avatar
    ++ optField "description" d.description
    ++ optField "website" d.website
    ++ (match d.contact with
        | none => []
        | some j => [("contact", j)]))

/-- The row `db.createSoul` inserts for a registered document: handler-chosen
`status = active`, `registeredAt = now`, `verificationCount = 0`, and the
`version` column's schema default 1. -/
def mkSoulRow (d : SoulDocument) (nowIso : String) : SoulRow :=
  { did := d.did, name := d.name, publicKey := d.publicKey,
    birthTimestamp := d.birth.timestamp, birthOperator := d.birth.operator,
    birthBaseModel := d.birth.baseModel, birthPlatform := d.birth.platform,
    birthCharterHash := d.birth.charterHash,
    avatar := d.avatar, description := d.description, website := d.website,
    contactJson := d.contact.map stringify,
    status := .active, registeredAt := nowIso, verificationCount := 0,
    version := 1, updatedAt := nowIso }

/-- `db.getSoulByName` hits: `LOWER(name) = LOWER(?)`. -/
def nameExists (store : List SoulRow) (name : String) : Bool :=
  store.any fun r => toLowerStr r.name == toLowerStr name

inductive RegResult where
  | didMismatch
  | nameTaken
  | invalidSignature
  | created
deriving DecidableEq, Repr

/-- The `POST /v1/souls/register` handler after schema validation: the
derived-DID gate (`soulDocument.did.toLowerCase() !== did:soul:name.toLowerCase()`),
the case-insensitive name-uniqueness gate, the signature gate over
`hashSoulDocument(soulDocument)` against the document's own `publicKey`, and
on success the `createSoul` insert. -/
def registerStep (ed : EdOracle) (store : List SoulRow) (doc : SoulDocument)
    (signature nowIso : String) : RegResult × List SoulRow :=
  if toLowerStr doc.did ≠ "did:soul:" ++ toLowerStr doc.name then (.didMismatch, store)
  else if nameExists store doc.name then (.nameTaken, store)
  else if verifySignature ed (.ofString (hashSoulDocument (docJson doc)))
      signature doc.publicKey then
    (.created, store ++ [mkSoulRow doc nowIso])
  else (.invalidSignature, store)

/-! ### Challenges (`db.ts` challenge operations, server verify route) -/

inductive ChStatus where
  | pending
  | completed
  | expired
deriving DecidableEq, Repr

/-- One row of the `challenges` table. `issuedAt`/`expiresAt` are the parsed
millisecond values of the stored ISO strings. -/
structure Challenge where
  challengeId : String
  did : String
  nonce : String
  issuedAt : Int
  expiresAt : Int
  status : ChStatus
deriving DecidableEq, Repr

/-- `db.updateChallengeStatus`: an unconditional `UPDATE challenges SET
status = ?`. -/
def updateChallengeStatus (status : ChStatus) (ch : Challenge) : Challenge :=
  { ch with status := status }

inductive VerifyResult where
  | challengeNotFound
  | challengeExpired
  | challengeUsed
  | notFound
  | didMismatch
  | invalidSignature
  | verified
deriving DecidableEq, Repr

/-- The `POST /v1/souls/:didOrName/verify` handler after schema validation,
acting on the looked-up challenge (`chOpt`) and the resolved soul (`soulOpt`),
at server time `now` (ms). Returns the response kind, the stored state of the
challenge afterwards, and whether `incrementVerificationCount` ran. Gate
order follows the source: lookup, expiry (which writes `expired`
unconditionally), already-used, soul resolution, DID match, signature over
the raw nonce with the stored public key. -/
def verifyStep (ed : EdOracle) (now : Int) (soulOpt : Option SoulRow)
    (chOpt : Option Challenge) (signature : String) :
    VerifyResult × Option Challenge × Bool :=
  match chOpt with
  | none => (.challengeNotFound, none, false)
  | some ch =>
    if ch.expiresAt < now then
      (.challengeExpired, some (updateChallengeStatus .expired ch), false)
    else if ch.status ≠ .pending then (.challengeUsed, some ch, false)
    else
      match soulOpt with
      | none => (.notFound, some ch, false)
      | some soul =>
        if ch.did ≠ soul.did then (.didMismatch, some ch, false)
        else if verifySignature ed (.ofString ch.nonce) signature soul.publicKey then
          (.verified, some (updateChallengeStatus .completed ch), true)
        else (.invalidSignature, some ch, false)

/-- `db.cleanExpiredChallenges` restricted to one row: delete it exactly when
`expires_at` has passed and the status is still `pending`. (The source
compares the stored ISO string against `datetime('now')`; the time order is
modelled on millisecond values.) -/
def cleanExpiredChallenge (now : Int) (chOpt : Option Challenge) :
    Option Challenge :=
  match chOpt with
  | none => none
  | some ch => if ch.expiresAt < now ∧ ch.status = .pending then none else some ch

/-! ### Metadata, capabilities and status updates (server routes) -/

inductive UpdResult where
  | notFound
  | timestampExpired
  | invalidSignature
  | success
deriving DecidableEq, Repr

/-- `PUT /v1/souls/:didOrName/contact` after schema validation. `tsStr` is the
client-supplied timestamp string as signed, `tsMs` its parsed millisecond
value, `now` the server time in ms. The freshness gate rejects exactly when
the timestamp is older than five minutes (`timestampDate < now - 5*60*1000`);
then the signature over `contact-update:did:timestamp` is checked against the
stored key; on success `db.updateSoulContact` runs. -/
def contactUpdateStep (ed : EdOracle) (now : Int) (soulOpt : Option SoulRow)
    (contactJson signature tsStr : String) (tsMs : Int) (nowIso : String) :
    UpdResult × Option SoulRow :=
  match soulOpt with
  | none => (.notFound, none)
  | some soul =>
    if tsMs < now - 5 * 60 * 1000 then (.timestampExpired, some soul)
    else if verifySignature ed
        (.ofString ("contact-update:" ++ soul.did ++ ":" ++ tsStr))
        signature soul.publicKey then
      (.success, some (updateSoulContact contactJson nowIso soul))
    else (.invalidSignature, some soul)

/-- `PUT /v1/souls/:didOrName/capabilities` after schema validation; same
shape as the contact route with message tag `capabilities-update`. -/
def capabilitiesUpdateStep (ed : EdOracle) (now : Int) (soulOpt : Option SoulRow)
    (capabilitiesJson : String) (riskLevel : Option String)
    (signature tsStr : String) (tsMs : Int) (nowIso : String) :
    UpdResult × Option SoulRow :=
  match soulOpt with
  | none => (.notFound, none)
  | some soul =>
    if tsMs < now - 5 * 60 * 1000 then (.timestampExpired, some soul)
    else if verifySignature ed
        (.ofString ("capabilities-update:" ++ soul.did ++ ":" ++ tsStr))
        signature soul.publicKey then
      (.success, some (updateSoulCapabilities capabilitiesJson riskLevel nowIso soul))
    else (.invalidSignature, some soul)

/-- The raw JSON body of a status-change request. `StatusUpdateSchema` has
only `reason` and `signature`; a `timestamp` field a client may send is kept
here to record that zod strips it — the handler never reads it. -/
structure StatusUpdateBody where
  reason : String
  signature : String
  timestamp : Option String := none

/-- The `updateStatus` helper behind `POST .../suspend`, `.../revoke` and
`.../reactivate`: resolve the soul, verify the signature over
`newStatus:did:reason` with the stored key, then `db.updateSoulStatus`.
There is no timestamp or freshness gate on this path. -/
def statusUpdateStep (ed : EdOracle) (soulOpt : Option SoulRow)
    (newStatus : SoulStatus) (body : StatusUpdateBody) (nowIso : String) :
    UpdResult × Option SoulRow :=
  match soulOpt with
  | none => (.notFound, none)
  | some soul =>
    if verifySignature ed
        (.ofString (statusName newStatus ++ ":" ++ soul.did ++ ":" ++ body.reason))
        body.signature soul.publicKey then
      (.success, some (updateSoulStatus newStatus body.reason nowIso soul))
    else (.invalidSignature, some soul)

/-! ### Concrete fixtures used by counterexamples and witnesses -/

/-- An Ed25519 oracle that accepts every well-decoded triple (the behaviour of
the primitive on a correctly signed message). -/
def edTrue : EdOracle := fun _ _ _ => .ok true

/-- An Ed25519 oracle that rejects every triple (the behaviour of the
primitive on a signature that does not match). -/
def edFalse : EdOracle := fun _ _ _ => .ok false

/-- The shape of the document the bundled self-registration client submits:
top-level `name` and a nested `birth` certificate. -/
def docA : Json :=
  .obj [("name", .str "nexus"),
        ("birth", .obj [("timestamp", .str "t1"), ("operator", .str "op")])]

/-- `docA` with only the nested `birth.timestamp` changed. -/
def docB : Json :=
  .obj [("name", .str "nexus"),
        ("birth", .obj [("timestamp", .str "t2"), ("operator", .str "op")])]

/-- A registered identity record. Its `publicKey` is hex so that
`decodeBase58OrHex` succeeds on it. -/
def soulN : SoulRow :=
  { did := "did:soul:nexus", name := "nexus", publicKey := "bb",
    birthTimestamp := "t1", birthOperator := "op", status := .active,
    registeredAt := "t0", verificationCount := 0, version := 1,
    updatedAt := "t0" }

/-- A pending challenge for `soulN`, issued at 0 ms, expiring at 300000 ms. -/
def ch0 : Challenge :=
  { challengeId := "ch_1", did := "did:soul:nexus", nonce := "n0",
    issuedAt := 0, expiresAt := 300000, status := .pending }

/-- `ch0` after a successful completion. -/
def chDone : Challenge := { ch0 with status := .completed }

/-- A candidate document whose declared DID differs from the derived
`did:soul:alice` only in the case of the `DID` prefix; it passes the
case-insensitive `DidSchema` regex. -/
def doc9 : SoulDocument :=
  { did := "DID:soul:alice", name := "alice", publicKey := "bb",
    birth := { timestamp := "t1", operator := "op" } }

/-- A well-formed candidate document for `did:soul:nexus`. -/
def docReg : SoulDocument :=
  { did := "did:soul:nexus", name := "nexus", publicKey := "bb",
    birth := { timestamp := "t1", operator := "op" } }

/-- A status-change body carrying a decades-old timestamp field (epoch 0),
which `StatusUpdateSchema` strips. -/
def staleStatusBody : StatusUpdateBody :=
  { reason := "maintenance", signature := "aa",
    timestamp := some "1970-01-01T00:00:00.000Z" }

set_option maxRecDepth 1000000

/-! ### Claims -/

/-- C1: the server's `hashSoulDocument` and the example client's reference
canonicalize-and-hash are claimed extensionally equal. On the client's own
document shape they disagree: the server's replacer array
`Object.keys(doc).sort()` filters every nested object down to the top-level
key names, so `birth` serializes as an empty object, while the client's
recursive key sort keeps the nested fields; the SHA-512 digests differ. -/
theorem c1_server_client_hash_disagree :
    canonicalServer docA = "\x7b\"birth\":\x7b\x7d,\"name\":\"nexus\"\x7d"
    ∧ canonicalClient docA
      = "\x7b\"birth\":\x7b\"operator\":\"op\",\"timestamp\":\"t1\"\x7d,\"name\":\"nexus\"\x7d"
    ∧ hashSoulDocument docA ≠ clientHashSoulDocument docA :=
  ⟨by decide, by decide, by decide⟩

/-- C2: a signature over `hash(doc)` is claimed not to verify over
`hash(doc')` for any semantically different `doc'`, including a change to
`birth.timestamp`. On the code this fails: `docA` and `docB` differ exactly
in `birth.timestamp`, yet `hashSoulDocument` erases nested fields and gives
them the identical digest, so any signature over the one hash verifies
verbatim over the other (the signed message is the same string). -/
theorem c2_nested_mutation_same_hash :
    docA ≠ docB ∧ hashSoulDocument docA = hashSoulDocument docB := by
  constructor
  · intro hEq
    have hc := congrArg canonicalClient hEq
    have hne : canonicalClient docA ≠ canonicalClient docB := by decide
    exact hne hc
  · show sha512hex (strBytes (canonicalServer docA))
      = sha512hex (strBytes (canonicalServer docB))
    have hcs : canonicalServer docA = canonicalServer docB := by decide
    rw [hcs]

/-- C3: `verifySignature` is total with a `Bool` result (the `try/catch`
covers the whole body, so it never throws), and it returns `true` exactly
when both decodings succeed and the Ed25519 primitive itself returns `true`:
every decoding failure and every failure of the primitive yields `false`,
for every message, signature, key and primitive behaviour. -/
theorem c3_verify_false_on_failure (ed : EdOracle) (m : Msg)
    (signature publicKey : String) :
    verifySignature ed m signature publicKey = true ↔
      ∃ sigBytes pubKeyBytes,
        decodeBase58OrHex signature = .ok sigBytes
        ∧ decodeBase58OrHex publicKey = .ok pubKeyBytes
        ∧ ed sigBytes (msgBytes m) pubKeyBytes = .ok true := by
  unfold verifySignature
  cases hs : decodeBase58OrHex signature with
  | error e => simp
  | ok sigBytes =>
    cases hp : decodeBase58OrHex publicKey with
    | error e => simp
    | ok pubKeyBytes =>
      cases hv : ed sigBytes (msgBytes m) pubKeyBytes with
      | error e => simp [hv]
      | ok b => cases b <;> simp [hv]

/-- C3 witness: a fully concrete failing decode yields `false`, through
`c3_verify_false_on_failure`. -/
theorem c3_verify_false_on_failure_witness :
    verifySignature edTrue (.ofString "m") "I0" "bb" = false := by
  have hiff := c3_verify_false_on_failure edTrue (.ofString "m") "I0" "bb"
  cases hb : verifySignature edTrue (.ofString "m") "I0" "bb" with
  | false => rfl
  | true =>
    obtain ⟨sigBytes, -, hdec, -⟩ := hiff.mp hb
    have : decodeBase58OrHex "I0" = .error "Invalid base58 character: I" := by rfl
    rw [this] at hdec
    exact absurd hdec (by simp)

/-- C4: completed/expired are claimed terminal. Concrete run refuting it: a
pending challenge is completed by a valid verify call at 1000 ms; a second
verify call at 300001 ms (past `expiresAt = 300000`) hits the expiry gate,
which runs `updateChallengeStatus(id, 'expired')` before the already-used
check, overwriting the terminal `completed` status with `expired`. -/
theorem c4_completed_challenge_reexpired :
    (verifyStep edTrue 1000 (some soulN) (some ch0) "aa").1 = VerifyResult.verified
    ∧ ((verifyStep edTrue 1000 (some soulN) (some ch0) "aa").2.1.map Challenge.status)
      = some ChStatus.completed
    ∧ ((verifyStep edTrue 300001 (some soulN)
          ((verifyStep edTrue 1000 (some soulN) (some ch0) "aa").2.1) "aa").2.1.map
        Challenge.status)
      = some ChStatus.expired := by
  refine ⟨rfl, rfl, rfl⟩

/-- C4 (amended): once a challenge has left `pending` it never returns to
`pending` and is never completed again; `expired` is unreachable-from and
stable; the expiry sweep never touches a non-pending challenge; but
`completed` is not fully terminal — a verify attempt after `expiresAt`
rewrites the status to `expired`, and that overwrite is the only change any
later operation makes. -/
theorem c4_amended_nonpending_stability (ed : EdOracle) (now : Int)
    (soulOpt : Option SoulRow) (sig : String) (ch : Challenge)
    (hnp : ch.status ≠ .pending) :
    (verifyStep ed now soulOpt (some ch) sig).2.1
      = some (if ch.expiresAt < now then updateChallengeStatus .expired ch else ch)
    ∧ (verifyStep ed now soulOpt (some ch) sig).1 ≠ .verified
    ∧ (verifyStep ed now soulOpt (some ch) sig).2.2 = false
    ∧ ((verifyStep ed now soulOpt (some ch) sig).2.1.map Challenge.status
        ≠ some .pending)
    ∧ (ch.status = .expired →
        (verifyStep ed now soulOpt (some ch) sig).2.1.map Challenge.status
          = some .expired)
    ∧ cleanExpiredChallenge now (some ch) = some ch := by
  by_cases hexp : ch.expiresAt < now
  · simp [verifyStep, hexp, hnp, cleanExpiredChallenge, updateChallengeStatus]
  · simp [verifyStep, hexp, hnp, cleanExpiredChallenge, updateChallengeStatus]

/-- C4 witness: the amended statement applied to a concrete completed
challenge within its validity window. -/
theorem c4_amended_nonpending_stability_witness :
    chDone.status ≠ ChStatus.pending
    ∧ (verifyStep edTrue 1000 (some soulN) (some chDone) "aa").1
        ≠ VerifyResult.verified :=
  ⟨by decide,
   (c4_amended_nonpending_stability edTrue 1000 (some soulN) "aa" chDone
      (by decide)).2.1⟩

/-- C5: a second `complete()` on a completed challenge is claimed to fail
with the already-used kind regardless of elapsed time. Refutation: at
300001 ms (past expiry) the completed challenge `chDone` yields
`CHALLENGE_EXPIRED`, not `CHALLENGE_USED`, because the expiry gate runs
first. -/
theorem c5_reuse_after_expiry_not_used :
    (verifyStep edTrue 300001 (some soulN) (some chDone) "aa").1
      = VerifyResult.challengeExpired
    ∧ (verifyStep edTrue 300001 (some soulN) (some chDone) "aa").1
      ≠ VerifyResult.challengeUsed := by
  refine ⟨rfl, by decide⟩

/-- C5 (amended): a later `complete()` on a completed challenge never
verifies and never runs the bookkeeping update; it fails with
`CHALLENGE_USED` while the validity window is open and with
`CHALLENGE_EXPIRED` once `expiresAt` has passed — for every signature,
subject resolution and oracle behaviour. -/
theorem c5_amended_completed_never_verifies (ed : EdOracle) (now : Int)
    (soulOpt : Option SoulRow) (sig : String) (ch : Challenge)
    (hc : ch.status = .completed) :
    (verifyStep ed now soulOpt (some ch) sig).1
      = (if ch.expiresAt < now then VerifyResult.challengeExpired
         else VerifyResult.challengeUsed)
    ∧ (verifyStep ed now soulOpt (some ch) sig).1 ≠ .verified
    ∧ (verifyStep ed now soulOpt (some ch) sig).2.2 = false := by
  have hnp : ch.status ≠ .pending := by rw [hc]; intro hcon; cases hcon
  by_cases hexp : ch.expiresAt < now
  · simp [verifyStep, hexp, hnp]
  · simp [verifyStep, hexp, hnp]

/-- C5 witness: the amended statement at a concrete completed challenge
inside its window, where the result is `CHALLENGE_USED`. -/
theorem c5_amended_completed_never_verifies_witness :
    chDone.status = ChStatus.completed
    ∧ (verifyStep edTrue 1000 (some soulN) (some chDone) "aa").1
        = (if chDone.expiresAt < 1000 then VerifyResult.challengeExpired
           else VerifyResult.challengeUsed) :=
  ⟨by decide,
   (c5_amended_completed_never_verifies edTrue 1000 (some soulN) "aa" chDone
      (by decide)).1⟩

/-- C6: every successful mutation, including the bookkeeping update of a
successful challenge completion, is claimed to strictly increment `version`.
Refutation on a concrete record: `incrementVerificationCount` (the write a
successful `complete()` performs) changes `verification_count` and
`last_verified_at` but leaves `version` exactly as it was. -/
theorem c6_bookkeeping_update_keeps_version :
    (incrementVerificationCount "t1" soulN).verificationCount
      = soulN.verificationCount + 1
    ∧ (incrementVerificationCount "t1" soulN).lastVerifiedAt = some "t1"
    ∧ (incrementVerificationCount "t1" soulN).version = soulN.version := by
  refine ⟨rfl, rfl, rfl⟩

/-- C6 (amended): the status, contact and capabilities updates each strictly
increment `version` (by exactly one), for every record and every argument;
the verification-count bookkeeping update performed by successful challenge
completion leaves `version` unchanged. -/
theorem c6_amended_version_increments (r : SoulRow) (st : SoulStatus)
    (reason contactJson capabilitiesJson nowIso : String)
    (riskLevel : Option String) :
    (updateSoulStatus st reason nowIso r).version = r.version + 1
    ∧ (updateSoulContact contactJson nowIso r).version = r.version + 1
    ∧ (updateSoulCapabilities capabilitiesJson riskLevel nowIso r).version
      = r.version + 1
    ∧ r.version < (updateSoulStatus st reason nowIso r).version
    ∧ (incrementVerificationCount nowIso r).version = r.version := by
  refine ⟨rfl, rfl, rfl, Nat.lt_succ_self _, rfl⟩

/-- C7: a status-change request with a stale client timestamp is claimed to
be rejected with `TIMESTAMP_EXPIRED`. Refutation: the status path has no
freshness gate at all — `StatusUpdateSchema` strips the `timestamp` field,
and a suspend request whose body carries the epoch-0 timestamp (decades
stale against any server clock) succeeds with a valid signature and mutates
the record. -/
theorem c7_status_change_skips_freshness :
    (statusUpdateStep edTrue (some soulN) .suspended staleStatusBody "t9").1
      = UpdResult.success
    ∧ (statusUpdateStep edTrue (some soulN) .suspended staleStatusBody "t9").1
      ≠ UpdResult.timestampExpired
    ∧ ((statusUpdateStep edTrue (some soulN) .suspended staleStatusBody "t9").2.map
        SoulRow.status) = some SoulStatus.suspended
    ∧ ((statusUpdateStep edTrue (some soulN) .suspended staleStatusBody "t9").2.map
        SoulRow.version) = some (soulN.version + 1) := by
  refine ⟨rfl, by decide, rfl, rfl⟩

/-- C7 (amended): on the metadata paths (contact and capabilities) a
client timestamp older than five minutes against server time is rejected
with `TIMESTAMP_EXPIRED` before the signature is even checked — so also for
a perfectly valid signature — and the stored record is returned unchanged;
the status-change path carries no timestamp and has no freshness gate. -/
theorem c7_amended_metadata_freshness (ed : EdOracle) (now tsMs : Int)
    (soul : SoulRow) (contactJson capabilitiesJson sig tsStr nowIso : String)
    (riskLevel : Option String)
    (hstale : tsMs < now - 5 * 60 * 1000) :
    contactUpdateStep ed now (some soul) contactJson sig tsStr tsMs nowIso
      = (.timestampExpired, some soul)
    ∧ capabilitiesUpdateStep ed now (some soul) capabilitiesJson riskLevel sig
        tsStr tsMs nowIso
      = (.timestampExpired, some soul) := by
  constructor
  · simp only [contactUpdateStep]
    rw [if_pos hstale]
  · simp only [capabilitiesUpdateStep]
    rw [if_pos hstale]

/-- C7 witness: a concrete 1000000 ms server clock against the epoch-0
timestamp, rejected unchanged even though the oracle would accept the
signature. -/
theorem c7_amended_metadata_freshness_witness :
    (0 : Int) < 1000000 - 5 * 60 * 1000
    ∧ contactUpdateStep edTrue 1000000 (some soulN) "cj" "aa" "1970" 0 "t9"
      = (UpdResult.timestampExpired, some soulN) :=
  ⟨by decide,
   (c7_amended_metadata_freshness edTrue 1000000 0 soulN "cj" "kj" "aa" "1970"
      "t9" none (by decide)).1⟩

/-- C10: the freshness gate of the metadata paths bounds the timestamp only
from below. For every timestamp at or after server time — arbitrarily far in
the future — the gate passes and the request falls through to exactly the
signature branch (verification against the stored key, and on success the
stored update); the result is never `TIMESTAMP_EXPIRED`. -/
theorem c10_future_timestamps_pass (ed : EdOracle) (now tsMs : Int)
    (soul : SoulRow) (contactJson capabilitiesJson sig tsStr nowIso : String)
    (riskLevel : Option String) (hfut : now ≤ tsMs) :
    (contactUpdateStep ed now (some soul) contactJson sig tsStr tsMs nowIso).1
      ≠ UpdResult.timestampExpired
    ∧ contactUpdateStep ed now (some soul) contactJson sig tsStr tsMs nowIso
      = (if verifySignature ed
            (.ofString ("contact-update:" ++ soul.did ++ ":" ++ tsStr))
            sig soul.publicKey
         then (UpdResult.success, some (updateSoulContact contactJson nowIso soul))
         else (UpdResult.invalidSignature, some soul))
    ∧ (capabilitiesUpdateStep ed now (some soul) capabilitiesJson riskLevel sig
        tsStr tsMs nowIso).1 ≠ UpdResult.timestampExpired
    ∧ capabilitiesUpdateStep ed now (some soul) capabilitiesJson riskLevel sig
        tsStr tsMs nowIso
      = (if verifySignature ed
            (.ofString ("capabilities-update:" ++ soul.did ++ ":" ++ tsStr))
            sig soul.publicKey
         then (UpdResult.success,
               some (updateSoulCapabilities capabilitiesJson riskLevel nowIso soul))
         else (UpdResult.invalidSignature, some soul)) := by
  have hok : ¬ (tsMs < now - 5 * 60 * 1000) := by omega
  refine ⟨?_, ?_, ?_, ?_⟩
  · simp only [contactUpdateStep, if_neg hok]
    split <;> simp
  · simp only [contactUpdateStep, if_neg hok]
  · simp only [capabilitiesUpdateStep, if_neg hok]
    split <;> simp
  · simp only [capabilitiesUpdateStep, if_neg hok]

/-- C10 witness: a timestamp 1000000000000 ms in the future of a 0 ms server
clock passes the freshness gate. -/
theorem c10_future_timestamps_pass_witness :
    (0 : Int) ≤ 1000000000000
    ∧ (contactUpdateStep edTrue 0 (some soulN) "cj" "aa" "ts" 1000000000000 "t9").1
      ≠ UpdResult.timestampExpired :=
  ⟨by decide,
   (c10_future_timestamps_pass edTrue 0 1000000000000 soulN "cj" "kj" "aa" "ts"
      "t9" none (by decide)).1⟩

/-- C8: registration applies its gates in order — derived-DID check,
case-insensitive name-uniqueness check, then the signature check over
`hashSoulDocument(document)` against the public key embedded in the candidate
document itself; every failure leaves the store unchanged; success happens
exactly when all gates pass, and appends a record with status `active`,
`verificationCount 0` and the server-assigned `registeredAt`. -/
theorem c8_registration_gates (ed : EdOracle) (store : List SoulRow)
    (doc : SoulDocument) (sig nowIso : String) :
    ((registerStep ed store doc sig nowIso).1 ≠ .created →
        (registerStep ed store doc sig nowIso).2 = store)
    ∧ (toLowerStr doc.did ≠ "did:soul:" ++ toLowerStr doc.name →
        (registerStep ed store doc sig nowIso).1 = .didMismatch)
    ∧ (toLowerStr doc.did = "did:soul:" ++ toLowerStr doc.name →
        nameExists store doc.name = true →
        (registerStep ed store doc sig nowIso).1 = .nameTaken)
    ∧ (toLowerStr doc.did = "did:soul:" ++ toLowerStr doc.name →
        nameExists store doc.name = false →
        verifySignature ed (.ofString (hashSoulDocument (docJson doc))) sig
            doc.publicKey = false →
        (registerStep ed store doc sig nowIso).1 = .invalidSignature)
    ∧ ((registerStep ed store doc sig nowIso).1 = .created →
        toLowerStr doc.did = "did:soul:" ++ toLowerStr doc.name
        ∧ nameExists store doc.name = false
        ∧ verifySignature ed (.ofString (hashSoulDocument (docJson doc))) sig
            doc.publicKey = true
        ∧ (registerStep ed store doc sig nowIso).2
          = store ++ [mkSoulRow doc nowIso])
    ∧ (mkSoulRow doc nowIso).status = .active
    ∧ (mkSoulRow doc nowIso).verificationCount = 0
    ∧ (mkSoulRow doc nowIso).registeredAt = nowIso
    ∧ (mkSoulRow doc nowIso).publicKey = doc.publicKey := by
  by_cases h1 : toLowerStr doc.did = "did:soul:" ++ toLowerStr doc.name
  · cases hn : nameExists store doc.name
    · cases hv : verifySignature ed (.ofString (hashSoulDocument (docJson doc)))
          sig doc.publicKey
      · simp [registerStep, h1, hn, hv, mkSoulRow]
      · simp [registerStep, h1, hn, hv, mkSoulRow]
    · simp [registerStep, h1, hn, mkSoulRow]
  · simp [registerStep, h1, mkSoulRow]

/-- C8 witness: with a rejecting Ed25519 primitive the registration of a
well-formed candidate fails and the (empty) store is unchanged, via
`c8_registration_gates`. -/
theorem c8_registration_gates_witness :
    (registerStep edFalse [] docReg "aa" "t0").1 ≠ RegResult.created
    ∧ (registerStep edFalse [] docReg "aa" "t0").2 = [] :=
  ⟨by decide, (c8_registration_gates edFalse [] docReg "aa" "t0").1 (by decide)⟩

/-- C9: registration is claimed to reject with `DID_MISMATCH` whenever the
declared `did` differs from `did:soul:` followed by the name. Refutation:
the handler compares `did.toLowerCase()` against the lowercased derivation,
so the candidate `doc9` — declared DID `DID:soul:alice`, derived
`did:soul:alice` — passes the gate and registers. -/
theorem c9_case_insensitive_did_passes :
    doc9.did ≠ "did:soul:" ++ doc9.name
    ∧ (registerStep edTrue [] doc9 "aa" "t0").1 = RegResult.created :=
  ⟨by decide, rfl⟩

/-- C9 (amended): registration rejects with `DID_MISMATCH` exactly when the
lowercased declared DID differs from `did:soul:` followed by the lowercased
name — the comparison is case-insensitive — and on success the record stores
the declared DID verbatim, never a corrected or normalized form. -/
theorem c9_amended_did_gate (ed : EdOracle) (store : List SoulRow)
    (doc : SoulDocument) (sig nowIso : String) :
    ((registerStep ed store doc sig nowIso).1 = RegResult.didMismatch
      ↔ toLowerStr doc.did ≠ "did:soul:" ++ toLowerStr doc.name)
    ∧ ((registerStep ed store doc sig nowIso).1 = .created →
        (registerStep ed store doc sig nowIso).2 = store ++ [mkSoulRow doc nowIso]
        ∧ (mkSoulRow doc nowIso).did = doc.did
        ∧ (mkSoulRow doc nowIso).name = doc.name) := by
  by_cases h1 : toLowerStr doc.did = "did:soul:" ++ toLowerStr doc.name
  · cases hn : nameExists store doc.name
    · cases hv : verifySignature ed (.ofString (hashSoulDocument (docJson doc)))
          sig doc.publicKey
      · simp [registerStep, h1, hn, hv, mkSoulRow]
      · simp [registerStep, h1, hn, hv, mkSoulRow]
    · simp [registerStep, h1, hn, mkSoulRow]
  · simp [registerStep, h1, mkSoulRow]

/-- C9 witness: the amended gate applied to the concrete case-mismatched
candidate `doc9`, whose stored DID is the declared one. -/
theorem c9_amended_did_gate_witness :
    (registerStep edTrue [] doc9 "aa" "t0").1 = RegResult.created
    ∧ (mkSoulRow doc9 "t0").did = doc9.did :=
  ⟨rfl, ((c9_amended_did_gate edTrue [] doc9 "aa" "t0").2 rfl).2.1⟩

end Soul

